import Mathlib

/-
Shallow embedding of src/app.py (TB Excel Processing App).

The script reads one uploaded .xlsx workbook, classifies its sheets by two
hard-coded name lists, whitespace-cleans every text cell, and writes up to
three output workbooks, logging one line per step.  Cells are modelled by
`Cell`, pandas DataFrames by `DF`, the uploaded workbook by `Workbook`, and
an openpyxl worksheet written by `DataFrame.to_excel` by `Worksheet`.
-/

set_option autoImplicit false

namespace TBVisit

/-- A spreadsheet cell value: text, an integer number, a calendar date
(year, month, day — `pd.Timestamp`/`datetime` values), or an empty cell
(pandas `NaN`). -/
inductive Cell where
  | str (s : String)
  | num (n : Int)
  | date (y m d : Nat)
  | empty
deriving DecidableEq, Repr

/-- The whitespace characters removed by Python's `str.strip()` (ASCII part). -/
def pySpace (c : Char) : Bool :=
  c == ' ' || c == '\t' || c == '\n' || c == '\r' || c == '\x0b' || c == '\x0c'

/-- Remove trailing `pySpace` characters. -/
def dropTrail (l : List Char) : List Char :=
  (l.reverse.dropWhile pySpace).reverse

/-- Remove leading and trailing `pySpace` characters. -/
def pyStripList (l : List Char) : List Char :=
  dropTrail (l.dropWhile pySpace)

/-- Models Python `s.strip()`. -/
def pyStrip (s : String) : String :=
  String.mk (pyStripList s.data)

/-- A string neither starts nor ends with a `pySpace` character. -/
def trimmedStr (s : String) : Bool :=
  !pySpace (s.data.headD 'x') && !pySpace (s.data.reverse.headD 'x')

/-- Models Python `sub in s` (substring containment). -/
def strContains (s sub : String) : Bool :=
  (List.range (s.data.length + 1)).any (fun i => sub.data.isPrefixOf (s.data.drop i))

/-- ASCII lower-casing of one character, as Python `str.lower` acts on the
ASCII range. -/
def pyLowerChar (c : Char) : Char :=
  if 'A' ≤ c ∧ c ≤ 'Z' then Char.ofNat (c.toNat + 32) else c

/-- Models Python `s.lower()` (ASCII range). -/
def pyLower (s : String) : String :=
  String.mk (s.data.map pyLowerChar)

/-- Models line 114 of app.py: `'registration' in c.lower() or 'visit' in c.lower()`. -/
def matchRegVisit (c : String) : Bool :=
  strContains (pyLower c) "registration" || strContains (pyLower c) "visit"

/-- A pandas DataFrame: a list of column names and a list of data rows. -/
structure DF where
  cols : List String
  rows : List (List Cell)
deriving DecidableEq, Repr

/-- `row[name]` for a row laid out against `cols`: the value under the first
column named `name`, `NaN` (empty) when the row has no such column. -/
def getCell : List String → List Cell → String → Cell
  | c :: cs, x :: xs, name => if c = name then x else getCell cs xs name
  | _, _, _ => Cell.empty

/-- One row of `df[name] = v` (pandas scalar column assignment) when `name`
is an existing column: overwrite the value under every column named `name`. -/
def setColRow (name : String) (v : Cell) : List String → List Cell → List Cell
  | c :: cs, x :: xs => (if c = name then v else x) :: setColRow name v cs xs
  | _, _ => []

/-- Models pandas `df[name] = v` with a scalar `v`: overwrite an existing
column in place, otherwise append a new column at the end. -/
def setCol (df : DF) (name : String) (v : Cell) : DF :=
  if name ∈ df.cols then
    ⟨df.cols, df.rows.map (setColRow name v df.cols)⟩
  else
    ⟨df.cols ++ [name], df.rows.map (fun r => r ++ [v])⟩

/-- Models pandas `df[names]`: keep exactly the columns `names`, in that order. -/
def selectCols (df : DF) (names : List String) : DF :=
  ⟨names, df.rows.map (fun r => names.map (getCell df.cols r))⟩

/-- Models line 84/110 of app.py:
`df.applymap(lambda x: x.strip() if isinstance(x, str) else x)`, per cell. -/
def cleanCell : Cell → Cell
  | Cell.str s => Cell.str (pyStrip s)
  | c => c

/-- Models the `applymap` call itself: clean every cell of the frame. -/
def applymapClean (df : DF) : DF :=
  ⟨df.cols, df.rows.map (List.map cleanCell)⟩

/-- Column list of `pd.concat(dfs, ignore_index=True)`: the columns of the
first frame, then each later frame's new columns in order of appearance. -/
def concatCols (dfs : List DF) : List String :=
  dfs.foldl (fun acc df => acc ++ df.cols.filter (fun c => !acc.contains c)) []

/-- Models `pd.concat(dfs, ignore_index=True)`: rows stacked in order, each
row re-laid-out against the union column list, missing cells `NaN`. -/
def concatDFs (dfs : List DF) : DF :=
  let cols := concatCols dfs
  ⟨cols, (dfs.map (fun df => df.rows.map (fun r => cols.map (getCell df.cols r)))).flatten⟩

/-- Pad a row with `NaN` (and drop surplus cells) so it has exactly `n` cells,
as `pd.read_excel` rectangularizes a sheet. -/
def resizeRow (n : Nat) (r : List Cell) : List Cell :=
  r.take n ++ List.replicate (n - r.length) Cell.empty

/-- The uploaded workbook: named sheets in file order; a raw sheet is stored
as a header row (`cols`) plus data rows. -/
structure Workbook where
  sheets : List (String × DF)
deriving DecidableEq, Repr

/-- Models `workbook.sheetnames` (line 63 of app.py). -/
def Workbook.sheetnames (wb : Workbook) : List String :=
  wb.sheets.map Prod.fst

/-- `wb` with every sheet named `name` removed (used to state that unmatched
sheets cannot influence any output). -/
def Workbook.eraseSheet (wb : Workbook) (name : String) : Workbook :=
  ⟨wb.sheets.filter (fun p => decide (p.1 ≠ name))⟩

/-- First sheet stored under `name`, if any. -/
def lookupSheet (name : String) : List (String × DF) → Option DF
  | [] => none
  | (n, df) :: rest => if n = name then some df else lookupSheet name rest

/-- Models `pd.read_excel(uploaded_file, sheet_name=name)` (lines 83/109):
the named sheet as a rectangular DataFrame. -/
def readSheet (wb : Workbook) (name : String) : DF :=
  match lookupSheet name wb.sheets with
  | some raw => ⟨raw.cols, raw.rows.map (resizeRow raw.cols.length)⟩
  | none => ⟨[], []⟩

/-- Line 58 of app.py. -/
def column_style_sheets : List String :=
  ["Kutkai", "Kunlong", "Muse", "Namhkan", "Namhsan", "Namtu", "Hseni", "Lashio", "Laukkaing"]

/-- Line 59 of app.py. -/
def row_style_sheets : List String :=
  ["Kyauktaw", "Myebon", "Minbya", "Mrauk-U", "Buthidaung", "Rathedaung", "Maungdaw", "Paletwa"]

/-- Line 66: `[s for s in column_style_sheets if s in all_sheet_names]`. -/
def existingColumnSheets (wb : Workbook) : List String :=
  column_style_sheets.filter (fun s => decide (s ∈ wb.sheetnames))

/-- Line 67: `[s for s in row_style_sheets if s in all_sheet_names]`. -/
def existingRowSheets (wb : Workbook) : List String :=
  row_style_sheets.filter (fun s => decide (s ∈ wb.sheetnames))

/-- Lines 83–85: read a row-style sheet, clean it, and force
`df['TOWNSHIP'] = sheet_name`. -/
def processRowSheet (wb : Workbook) (name : String) : DF :=
  setCol (applymapClean (readSheet wb name)) "TOWNSHIP" (Cell.str name)

/-- Lines 79–87: the `row_summary_data` list (one cleaned, tagged frame per
matched row-style sheet, in static-list order). -/
def rowSummaryData (wb : Workbook) : List DF :=
  (existingRowSheets wb).map (processRowSheet wb)

/-- Lines 109–110: read a column-style sheet and clean it (`column_sheets_data`). -/
def cleanColSheet (wb : Workbook) (name : String) : DF :=
  applymapClean (readSheet wb name)

/-- Line 114: `[c for c in df.columns if 'registration' in c.lower() or 'visit' in c.lower()]`. -/
def colsNeeded (df : DF) : List String :=
  df.cols.filter matchRegVisit

/-- Lines 115–117: the summary projection of one column-style sheet, tagged
with `SOURCE_SHEET` and `TOWNSHIP`. -/
def colSummaryProj (df : DF) (name : String) : DF :=
  setCol (setCol (selectCols df (colsNeeded df)) "SOURCE_SHEET" (Cell.str name))
    "TOWNSHIP" (Cell.str name)

/-- Lines 105–118: the `summary_data_list` list. -/
def columnSummaryList (wb : Workbook) : List DF :=
  (existingColumnSheets wb).map (fun n => colSummaryProj (cleanColSheet wb n) n)

/-- An openpyxl worksheet produced by `DataFrame.to_excel`: the sheet name,
the written frame, explicitly set column widths (1-based column index) and
explicitly set cell-level number formats (1-based row and column index). -/
structure Worksheet where
  name : String
  df : DF
  widths : List (Nat × Nat)
  formats : List (Nat × Nat × String)
deriving DecidableEq, Repr

/-- `df.to_excel(writer, sheet_name=name, index=False)`: the writer sets no
column widths and no cell-level number formats. -/
def writeDF (name : String) (df : DF) : Worksheet :=
  ⟨name, df, [], []⟩

/-- Lines 90–99: the row-style output workbook, present only when at least
one row-style sheet matched (`if row_summary_data:`). -/
def rowOutput (wb : Workbook) : Option (List Worksheet) :=
  if (rowSummaryData wb).isEmpty then none
  else some (writeDF "Summary" (concatDFs (rowSummaryData wb))
    :: (existingRowSheets wb).map (fun n => writeDF n (processRowSheet wb n)))

/-- Lines 121–131: the column-style output workbook, present only when at
least one column-style sheet matched (`if summary_data_list:`). -/
def columnOutput (wb : Workbook) : Option (List Worksheet) :=
  if (columnSummaryList wb).isEmpty then none
  else some (writeDF "Summary" (concatDFs (columnSummaryList wb))
    :: (existingColumnSheets wb).map (fun n => writeDF n (cleanColSheet wb n)))

/-- Lines 136–142: the sheets written into `Final_Restructured_Data.xlsx`. -/
def finalSheetList (wb : Workbook) : List Worksheet :=
  (if (columnSummaryList wb).isEmpty then []
    else [writeDF "Summary" (concatDFs (columnSummaryList wb))])
  ++ (existingColumnSheets wb).map (fun n => writeDF n (cleanColSheet wb n))
  ++ (existingRowSheets wb).map (fun n => writeDF n (processRowSheet wb n))

/-- Closing a `pd.ExcelWriter(engine='openpyxl')`: pandas removes openpyxl's
default sheet on creation, and saving a workbook that contains zero sheets
raises `IndexError: At least one sheet must be visible`. -/
def saveWorkbook (sheets : List Worksheet) : Except String (List Worksheet) :=
  if sheets.isEmpty then Except.error "At least one sheet must be visible"
  else Except.ok sheets

/-- Lines 136–143: the final restructured workbook, or the exception its
`ExcelWriter` raises. -/
def finalOutput (wb : Workbook) : Except String (List Worksheet) :=
  saveWorkbook (finalSheetList wb)

/-- Every output workbook the pass actually produced, in production order. -/
def producedOutputs (wb : Workbook) : List (List Worksheet) :=
  (match rowOutput wb with | some l => [l] | none => [])
  ++ (match columnOutput wb with | some l => [l] | none => [])
  ++ (match finalOutput wb with | Except.ok l => [l] | Except.error _ => [])

/-- Line 55. -/
def uploadLog (fname : String) : String := "✅ File uploaded: " ++ fname

/-- Line 69. -/
def detectLog (wb : Workbook) : String :=
  "📄 Sheets detected: Column-style " ++ (toString (existingColumnSheets wb).length
    ++ (", Row-style " ++ toString (existingRowSheets wb).length))

/-- Line 88. -/
def rowSheetLog (n : String) : String := "   Processed row-style sheet: " ++ n

/-- Line 119. -/
def colSheetLog (n : String) : String := "   Processed column-style sheet: " ++ n

/-- Line 150. -/
def errorLog (e : String) : String := "❌ Error: " ++ e

/-- A log line carrying the failure marker (first character `❌`). -/
def markedAsError (l : String) : Bool := l.data.headD ' ' == '❌'

/-- The user-visible outcome of one processing pass: the cumulative log lines
and the download buttons offered (by output file name). -/
structure PassResult where
  logs : List String
  downloads : List String
deriving DecidableEq, Repr

/-- Lines 55–131: the log lines emitted before the final writer runs, on a
successfully parsed workbook. -/
def okLogs (fname : String) (wb : Workbook) : List String :=
  [uploadLog fname, detectLog wb]
    ++ (existingRowSheets wb).map rowSheetLog
    ++ (if (rowSummaryData wb).isEmpty then [] else ["✅ Row-style sheets processed"])
    ++ (existingColumnSheets wb).map colSheetLog
    ++ (if (columnSummaryList wb).isEmpty then [] else ["✅ Column-style sheets processed"])

/-- Lines 97 and 128: the download buttons offered before the final writer
runs (each only when its stage produced a workbook). -/
def okDownloads (wb : Workbook) : List String :=
  (if (rowSummaryData wb).isEmpty then [] else ["Row_Style_Sheets.xlsx"])
    ++ (if (columnSummaryList wb).isEmpty then [] else ["Summary_and_Column_Sheets.xlsx"])

/-- Lines 54–150: the whole processing pass for one uploaded file.  `parsed`
is the result of `load_workbook` (line 62): `Except.error` when the file is
corrupt or not a workbook.  The `try/except` boundary turns any exception
into a single `❌ Error:` log line and stops further processing, keeping the
download buttons already offered. -/
def processUpload (fname : String) (parsed : Except String Workbook) : PassResult :=
  match parsed with
  | Except.error e => ⟨[uploadLog fname, errorLog e], []⟩
  | Except.ok wb =>
    match finalOutput wb with
    | Except.ok _ =>
      ⟨okLogs fname wb ++ ["🎉 All files processed successfully!"],
        okDownloads wb ++ ["Final_Restructured_Data.xlsx"]⟩
    | Except.error e => ⟨okLogs fname wb ++ [errorLog e], okDownloads wb⟩

/-- Zero-padded decimal rendering, at least two digits. -/
def pad2 (n : Nat) : String := if n < 10 then "0" ++ toString n else toString n

/-- Zero-padded decimal rendering, at least four digits. -/
def pad4 (n : Nat) : String :=
  if n < 10 then "000" ++ toString n
  else if n < 100 then "00" ++ toString n
  else if n < 1000 then "0" ++ toString n
  else toString n

/-- A date rendered `YYYY-MM-DD`. -/
def renderDate (y m d : Nat) : String := pad4 y ++ "-" ++ pad2 m ++ "-" ++ pad2 d

/-- Python `str(value)` for a cell value (`NaN` prints as `nan`). -/
def pyStr : Cell → String
  | Cell.str s => s
  | Cell.num n => toString n
  | Cell.date y m d => renderDate y m d
  | Cell.empty => "nan"

/-- Lines 12–13: `create_uid(row)` — the stripped `TOWNSHIP`,
`REGISTRATION NUMBER` and `PATIENT NAME` fields concatenated. -/
def createUid (cols : List String) (r : List Cell) : String :=
  pyStrip (pyStr (getCell cols r "TOWNSHIP"))
    ++ pyStrip (pyStr (getCell cols r "REGISTRATION NUMBER"))
    ++ pyStrip (pyStr (getCell cols r "PATIENT NAME"))

/-- Lines 20–29, per cell: a date/time value is displayed with length 10,
anything else with the length of its `str()` rendering. -/
def cellLengthForWidth : Cell → Nat
  | Cell.date _ _ _ => 10
  | c => (pyStr c).length

/-- Lines 17–30, per column: `max_length` starts at `len(str(col)) + 2` and
takes `max` with `cell_length + 2` over every data row. -/
def columnWidth (cols : List String) (rows : List (List Cell)) (j : Nat) : Nat :=
  rows.foldl (fun m r => max m (cellLengthForWidth (r.getD j Cell.empty) + 2))
    ((cols.getD j "").length + 2)

/-- Lines 23–25: the cell-level `'yyyy-mm-dd'` number formats the helper sets,
one per date cell, at worksheet coordinates (data row `i` is worksheet row
`i + 2`, column `j` is worksheet column `j + 1`), columns outermost. -/
def dateFormats (cols : List String) (rows : List (List Cell)) : List (Nat × Nat × String) :=
  ((List.range cols.length).map (fun j =>
    (List.range rows.length).filterMap (fun i =>
      match (rows.getD i []).getD j Cell.empty with
      | Cell.date _ _ _ => some (i + 2, j + 1, "yyyy-mm-dd")
      | _ => none))).flatten

/-- Lines 15–30: `format_worksheet_dates(worksheet, df)` — sets every column
width and a `'yyyy-mm-dd'` format on every date cell.  (Replacing a datetime
value by its `.date()` part is invisible here because `Cell.date` already
carries only the date.) -/
def formatWorksheetDates (ws : Worksheet) : Worksheet :=
  ⟨ws.name, ws.df,
    (List.range ws.df.cols.length).map (fun j => (j + 1, columnWidth ws.df.cols ws.df.rows j)),
    dateFormats ws.df.cols ws.df.rows⟩

/-- A workbook with one matched row-style sheet and one unmatched sheet. -/
def wbRow : Workbook :=
  ⟨[("Kyauktaw", ⟨["Name", "Age"], [[Cell.str "  Aung  ", Cell.num 30], [Cell.str "Ma", Cell.num 25]]⟩),
    ("Extra", ⟨["X"], [[Cell.num 1]]⟩)]⟩

/-- A workbook with one matched column-style sheet. -/
def wbCol : Workbook :=
  ⟨[("Kutkai", ⟨["Registration No", "Visit Date", "Other"],
      [[Cell.str " r1 ", Cell.date 2024 1 2, Cell.num 5]]⟩)]⟩

/-- A workbook none of whose sheet names matches either static list. -/
def wbNone : Workbook :=
  ⟨[("Foo", ⟨["A"], [[Cell.num 1]]⟩)]⟩

/-- `wbRow` together with a second unmatched sheet named `Bar`. -/
def wbRowBar : Workbook :=
  ⟨wbRow.sheets ++ [("Bar", ⟨["Y"], [[Cell.str " hi "]]⟩)]⟩

/-- A written worksheet holding one date cell and one short text cell. -/
def wsDate : Worksheet :=
  writeDF "S" ⟨["Visit Date"], [[Cell.date 2024 1 2], [Cell.str "x"]]⟩

/-- Rectangularity of a frame: every row is as long as the column list. -/
def rowsLen (df : DF) : Prop :=
  ∀ r ∈ df.rows, r.length = df.cols.length

/-- Every text cell of the frame is free of leading/trailing whitespace. -/
def DFtrimmed (df : DF) : Prop :=
  ∀ r ∈ df.rows, ∀ c ∈ r, ∀ s, c = Cell.str s → trimmedStr s = true

section StringLemmas

theorem stringDataAppend (a b : String) : (a ++ b).data = a.data ++ b.data := by
  cases a; cases b; rfl

theorem markedAsError_append (a b : String) (h : a.data ≠ []) :
    markedAsError (a ++ b) = markedAsError a := by
  unfold markedAsError
  rw [stringDataAppend]
  cases hd : a.data with
  | nil => exact absurd hd h
  | cons c t => simp [hd]

theorem pySpace_headD_dropWhile (l : List Char) (c : Char) (hc : pySpace c = false) :
    pySpace ((l.dropWhile pySpace).headD c) = false := by
  have h := List.head?_dropWhile_not pySpace l
  cases hh : (l.dropWhile pySpace).head? with
  | none =>
    have : l.dropWhile pySpace = [] := List.head?_eq_none_iff.mp hh
    simp [this, hc]
  | some x =>
    rw [hh] at h
    have : (l.dropWhile pySpace).headD c = x := by
      cases he : l.dropWhile pySpace with
      | nil => rw [he] at hh; simp at hh
      | cons y ys => rw [he] at hh; simp at hh; simp [he, hh]
    rw [this]
    exact h

theorem dropTrail_isPrefix (l : List Char) : dropTrail l <+: l := by
  unfold dropTrail
  have h : l.reverse.dropWhile pySpace <:+ l.reverse := List.dropWhile_suffix pySpace
  have := List.reverse_prefix.mpr h
  simpa using this

theorem pySpace_headD_dropTrail (l : List Char) (c : Char) (hc : pySpace c = false)
    (hl : pySpace (l.headD c) = false) :
    pySpace ((dropTrail l).headD c) = false := by
  cases he : dropTrail l with
  | nil => simp [hc]
  | cons x xs =>
    have hpre : dropTrail l <+: l := dropTrail_isPrefix l
    rw [he] at hpre
    obtain ⟨t, ht⟩ := hpre
    cases l with
    | nil => simp at ht
    | cons y ys =>
      have hx : x = y := by
        have := ht
        simp at this
        exact this.1
      simp only [List.headD_cons]
      rw [hx]
      simpa using hl

theorem trimmedStr_pyStrip (s : String) : trimmedStr (pyStrip s) = true := by
  unfold trimmedStr pyStrip
  have hx : pySpace 'x' = false := by decide
  have h1 : pySpace ((pyStripList s.data).headD 'x') = false := by
    unfold pyStripList
    exact pySpace_headD_dropTrail _ 'x' hx (pySpace_headD_dropWhile s.data 'x' hx)
  have h2 : pySpace ((pyStripList s.data).reverse.headD 'x') = false := by
    unfold pyStripList dropTrail
    rw [List.reverse_reverse]
    exact pySpace_headD_dropWhile _ 'x' hx
  simp only [Bool.and_eq_true, Bool.not_eq_true']
  exact ⟨h1, h2⟩

theorem trimmedCell_cleanCell (c : Cell) :
    ∀ s, cleanCell c = Cell.str s → trimmedStr s = true := by
  intro s h
  cases c with
  | str t =>
    simp [cleanCell] at h
    rw [← h]
    exact trimmedStr_pyStrip t
  | num n => simp [cleanCell] at h
  | date y m d => simp [cleanCell] at h
  | empty => simp [cleanCell] at h

end StringLemmas

section DFLemmas

theorem getCell_mem_or_empty (cols : List String) (r : List Cell) (name : String) :
    getCell cols r name ∈ r ∨ getCell cols r name = Cell.empty := by
  induction cols generalizing r with
  | nil => right; rfl
  | cons c cs ih =>
    cases r with
    | nil => right; rfl
    | cons x xs =>
      by_cases h : c = name
      · left; simp [getCell, h]
      · rcases ih xs with h2 | h2
        · left
          simp only [getCell, if_neg h]
          exact List.mem_cons_of_mem _ h2
        · right
          simpa [getCell, if_neg h] using h2

theorem setColRow_mem (name : String) (v : Cell) (cols : List String) (r : List Cell)
    (c : Cell) (hc : c ∈ setColRow name v cols r) : c = v ∨ c ∈ r := by
  induction cols generalizing r with
  | nil => simp [setColRow] at hc
  | cons cl cls ih =>
    cases r with
    | nil => simp [setColRow] at hc
    | cons x xs =>
      simp only [setColRow, List.mem_cons] at hc
      rcases hc with hc | hc
      · by_cases h : cl = name
        · left; simpa [h] using hc
        · right; rw [if_neg h] at hc; simp [hc]
      · rcases ih xs hc with h2 | h2
        · left; exact h2
        · right; exact List.mem_cons_of_mem _ h2

theorem setColRow_length (name : String) (v : Cell) (cols : List String) (r : List Cell) :
    (setColRow name v cols r).length = min cols.length r.length := by
  induction cols generalizing r with
  | nil => simp [setColRow]
  | cons cl cls ih =>
    cases r with
    | nil => simp [setColRow]
    | cons x xs => simp [setColRow, ih xs, Nat.succ_min_succ]

theorem getCell_setColRow (name : String) (v : Cell) (cols : List String) (r : List Cell)
    (hmem : name ∈ cols) (hlen : r.length = cols.length) :
    getCell cols (setColRow name v cols r) name = v := by
  induction cols generalizing r with
  | nil => simp at hmem
  | cons cl cls ih =>
    cases r with
    | nil => simp at hlen
    | cons x xs =>
      by_cases h : cl = name
      · simp [setColRow, getCell, h]
      · have hmem2 : name ∈ cls := by
          rcases List.mem_cons.mp hmem with h2 | h2
          · exact absurd h2.symm h
          · exact h2
        have hlen2 : xs.length = cls.length := by simpa using hlen
        simp only [setColRow, getCell, if_neg h]
        exact ih xs hmem2 hlen2

theorem getCell_append_not_mem (cols : List String) (r : List Cell)
    (cols2 : List String) (r2 : List Cell) (name : String)
    (hnm : name ∉ cols) (hlen : r.length = cols.length) :
    getCell (cols ++ cols2) (r ++ r2) name = getCell cols2 r2 name := by
  induction cols generalizing r with
  | nil =>
    have : r = [] := List.length_eq_zero.mp hlen
    simp [this]
  | cons cl cls ih =>
    cases r with
    | nil => simp at hlen
    | cons x xs =>
      have h : cl ≠ name := fun h => hnm (by simp [h])
      have hnm2 : name ∉ cls := fun h2 => hnm (List.mem_cons_of_mem _ h2)
      have hlen2 : xs.length = cls.length := by simpa using hlen
      simp only [List.cons_append, getCell, if_neg h]
      exact ih xs hnm2 hlen2

theorem resizeRow_length (n : Nat) (r : List Cell) : (resizeRow n r).length = n := by
  simp [resizeRow]
  omega

theorem rowsLen_readSheet (wb : Workbook) (name : String) : rowsLen (readSheet wb name) := by
  unfold readSheet
  cases lookupSheet name wb.sheets with
  | none => intro r hr; simp at hr
  | some raw =>
    intro r hr
    simp only [List.mem_map] at hr
    obtain ⟨r0, _, rfl⟩ := hr
    exact resizeRow_length _ _

theorem applymapClean_cols (df : DF) : (applymapClean df).cols = df.cols := rfl

theorem rowsLen_applymapClean (df : DF) (h : rowsLen df) : rowsLen (applymapClean df) := by
  intro r hr
  simp only [applymapClean, List.mem_map] at hr
  obtain ⟨r0, hr0, rfl⟩ := hr
  simpa using h r0 hr0

theorem rowsLen_setCol (df : DF) (name : String) (v : Cell) (h : rowsLen df) :
    rowsLen (setCol df name v) := by
  unfold setCol
  by_cases hm : name ∈ df.cols
  · rw [if_pos hm]
    intro r hr
    simp only [List.mem_map] at hr
    obtain ⟨r0, hr0, rfl⟩ := hr
    simp [setColRow_length, h r0 hr0]
  · rw [if_neg hm]
    intro r hr
    simp only [List.mem_map] at hr
    obtain ⟨r0, hr0, rfl⟩ := hr
    simp [h r0 hr0]

theorem rowsLen_selectCols (df : DF) (names : List String) : rowsLen (selectCols df names) := by
  intro r hr
  simp only [selectCols, List.mem_map] at hr
  obtain ⟨r0, _, rfl⟩ := hr
  simp [selectCols]

theorem setCol_rows_length (df : DF) (name : String) (v : Cell) :
    (setCol df name v).rows.length = df.rows.length := by
  unfold setCol
  by_cases hm : name ∈ df.cols
  · rw [if_pos hm]; simp
  · rw [if_neg hm]; simp

theorem processRowSheet_rows_length (wb : Workbook) (name : String) :
    (processRowSheet wb name).rows.length = (readSheet wb name).rows.length := by
  unfold processRowSheet
  rw [setCol_rows_length]
  simp [applymapClean]

theorem concatDFs_rows_length (dfs : List DF) :
    (concatDFs dfs).rows.length = (dfs.map (fun df => df.rows.length)).sum := by
  unfold concatDFs
  simp only [List.length_flatten, List.map_map]
  congr 1
  apply List.map_congr_left
  intro df _
  simp

end DFLemmas

section TrimmedLemmas

theorem DFtrimmed_applymapClean (df : DF) : DFtrimmed (applymapClean df) := by
  intro r hr c hc s hs
  simp only [applymapClean, List.mem_map] at hr
  obtain ⟨r0, _, rfl⟩ := hr
  simp only [List.mem_map] at hc
  obtain ⟨c0, _, rfl⟩ := hc
  exact trimmedCell_cleanCell c0 s hs

theorem DFtrimmed_setCol (df : DF) (name : String) (v : Cell)
    (hdf : DFtrimmed df) (hv : ∀ s, v = Cell.str s → trimmedStr s = true) :
    DFtrimmed (setCol df name v) := by
  unfold setCol
  by_cases hm : name ∈ df.cols
  · rw [if_pos hm]
    intro r hr c hc s hs
    simp only [List.mem_map] at hr
    obtain ⟨r0, hr0, rfl⟩ := hr
    rcases setColRow_mem name v df.cols r0 c hc with h | h
    · exact hv s (h ▸ hs)
    · exact hdf r0 hr0 c h s hs
  · rw [if_neg hm]
    intro r hr c hc s hs
    simp only [List.mem_map] at hr
    obtain ⟨r0, hr0, rfl⟩ := hr
    rcases List.mem_append.mp hc with h | h
    · exact hdf r0 hr0 c h s hs
    · have : c = v := by simpa using h
      exact hv s (this ▸ hs)

theorem DFtrimmed_selectCols (df : DF) (names : List String) (hdf : DFtrimmed df) :
    DFtrimmed (selectCols df names) := by
  intro r hr c hc s hs
  simp only [selectCols, List.mem_map] at hr
  obtain ⟨r0, hr0, rfl⟩ := hr
  simp only [List.mem_map] at hc
  obtain ⟨n, _, rfl⟩ := hc
  rcases getCell_mem_or_empty df.cols r0 n with h | h
  · exact hdf r0 hr0 _ h s hs
  · rw [h] at hs; cases hs

theorem DFtrimmed_concatDFs (dfs : List DF) (h : ∀ df ∈ dfs, DFtrimmed df) :
    DFtrimmed (concatDFs dfs) := by
  intro r hr c hc s hs
  simp only [concatDFs, List.mem_flatten, List.mem_map] at hr
  obtain ⟨l, ⟨df, hdf, rfl⟩, hrl⟩ := hr
  simp only [List.mem_map] at hrl
  obtain ⟨r0, hr0, rfl⟩ := hrl
  simp only [List.mem_map] at hc
  obtain ⟨n, _, rfl⟩ := hc
  rcases getCell_mem_or_empty df.cols r0 n with h2 | h2
  · exact h df hdf r0 hr0 _ h2 s hs
  · rw [h2] at hs; cases hs

theorem trimmed_static_row (n : String) (h : n ∈ row_style_sheets) :
    trimmedStr n = true := by
  fin_cases h <;> decide

theorem trimmed_static_col (n : String) (h : n ∈ column_style_sheets) :
    trimmedStr n = true := by
  fin_cases h <;> decide

theorem DFtrimmed_processRowSheet (wb : Workbook) (n : String) (h : n ∈ row_style_sheets) :
    DFtrimmed (processRowSheet wb n) := by
  apply DFtrimmed_setCol
  · exact DFtrimmed_applymapClean _
  · intro s hs
    injection hs with hs2
    subst hs2
    exact trimmed_static_row n h

theorem DFtrimmed_cleanColSheet (wb : Workbook) (n : String) :
    DFtrimmed (cleanColSheet wb n) :=
  DFtrimmed_applymapClean _

theorem DFtrimmed_colSummaryProj (wb : Workbook) (n : String) (h : n ∈ column_style_sheets) :
    DFtrimmed (colSummaryProj (cleanColSheet wb n) n) := by
  unfold colSummaryProj
  apply DFtrimmed_setCol
  · apply DFtrimmed_setCol
    · exact DFtrimmed_selectCols _ _ (DFtrimmed_cleanColSheet wb n)
    · intro s hs
      injection hs with hs2
      subst hs2
      exact trimmed_static_col n h
  · intro s hs
    injection hs with hs2
    subst hs2
    exact trimmed_static_col n h

theorem outputs_trimmed (wb : Workbook) :
    ∀ out ∈ producedOutputs wb, ∀ ws ∈ out, DFtrimmed ws.df := by
  have hrow : ∀ df ∈ rowSummaryData wb, DFtrimmed df := by
    intro df hdf
    simp only [rowSummaryData, List.mem_map] at hdf
    obtain ⟨n, hn, rfl⟩ := hdf
    exact DFtrimmed_processRowSheet wb n (List.mem_of_mem_filter hn)
  have hcol : ∀ df ∈ columnSummaryList wb, DFtrimmed df := by
    intro df hdf
    simp only [columnSummaryList, List.mem_map] at hdf
    obtain ⟨n, hn, rfl⟩ := hdf
    exact DFtrimmed_colSummaryProj wb n (List.mem_of_mem_filter hn)
  intro out hout ws hws
  unfold producedOutputs at hout
  simp only [List.mem_append] at hout
  rcases hout with (hout | hout) | hout
  · by_cases hc : (rowSummaryData wb).isEmpty = true
    · simp [rowOutput, hc] at hout
    · simp only [rowOutput, if_neg hc, List.mem_singleton] at hout
      subst hout
      rcases List.mem_cons.mp hws with hws | hws
      · subst hws
        exact DFtrimmed_concatDFs _ hrow
      · simp only [List.mem_map] at hws
        obtain ⟨n, hn, rfl⟩ := hws
        exact DFtrimmed_processRowSheet wb n (List.mem_of_mem_filter hn)
  · by_cases hc : (columnSummaryList wb).isEmpty = true
    · simp [columnOutput, hc] at hout
    · simp only [columnOutput, if_neg hc, List.mem_singleton] at hout
      subst hout
      rcases List.mem_cons.mp hws with hws | hws
      · subst hws
        exact DFtrimmed_concatDFs _ hcol
      · simp only [List.mem_map] at hws
        obtain ⟨n, _, rfl⟩ := hws
        exact DFtrimmed_cleanColSheet wb n
  · by_cases hc : (finalSheetList wb).isEmpty = true
    · simp [finalOutput, saveWorkbook, hc] at hout
    · simp only [finalOutput, saveWorkbook, if_neg hc, List.mem_singleton] at hout
      subst hout
      unfold finalSheetList at hws
      simp only [List.mem_append] at hws
      rcases hws with (hws | hws) | hws
      · by_cases hc2 : (columnSummaryList wb).isEmpty = true
        · simp [hc2] at hws
        · simp only [if_neg hc2, List.mem_singleton] at hws
          subst hws
          exact DFtrimmed_concatDFs _ hcol
      · simp only [List.mem_map] at hws
        obtain ⟨n, _, rfl⟩ := hws
        exact DFtrimmed_cleanColSheet wb n
      · simp only [List.mem_map] at hws
        obtain ⟨n, hn, rfl⟩ := hws
        exact DFtrimmed_processRowSheet wb n (List.mem_of_mem_filter hn)

end TrimmedLemmas

section LogLemmas

theorem markedAsError_uploadLog (f : String) : markedAsError (uploadLog f) = false := by
  rw [uploadLog, markedAsError_append _ _ (by decide)]
  decide

theorem markedAsError_detectLog (wb : Workbook) : markedAsError (detectLog wb) = false := by
  rw [detectLog, markedAsError_append _ _ (by decide)]
  decide

theorem markedAsError_rowSheetLog (n : String) : markedAsError (rowSheetLog n) = false := by
  rw [rowSheetLog, markedAsError_append _ _ (by decide)]
  decide

theorem markedAsError_colSheetLog (n : String) : markedAsError (colSheetLog n) = false := by
  rw [colSheetLog, markedAsError_append _ _ (by decide)]
  decide

theorem markedAsError_errorLog (e : String) : markedAsError (errorLog e) = true := by
  rw [errorLog, markedAsError_append _ _ (by decide)]
  decide

theorem mem_ite_nil {c : Prop} [Decidable c] {l : List String} {a : String}
    (h : a ∈ (if c then ([] : List String) else l)) : a ∈ l := by
  split at h
  · simp at h
  · exact h

theorem countP_okLogs (fname : String) (wb : Workbook) :
    (okLogs fname wb).countP markedAsError = 0 := by
  rw [List.countP_eq_zero]
  intro a ha
  simp only [okLogs, List.mem_append, List.mem_cons, List.mem_map, List.not_mem_nil,
    or_false] at ha
  rcases ha with ((((ha | ha) | ha) | ha) | ha) | ha
  · simp [ha, markedAsError_uploadLog]
  · simp [ha, markedAsError_detectLog]
  · obtain ⟨n, _, rfl⟩ := ha
    simp [markedAsError_rowSheetLog]
  · have := mem_ite_nil ha
    simp only [List.mem_singleton] at this
    subst this
    decide
  · obtain ⟨n, _, rfl⟩ := ha
    simp [markedAsError_colSheetLog]
  · have := mem_ite_nil ha
    simp only [List.mem_singleton] at this
    subst this
    decide

theorem final_not_mem_okDownloads (wb : Workbook) :
    "Final_Restructured_Data.xlsx" ∉ okDownloads wb := by
  intro h
  simp only [okDownloads, List.mem_append] at h
  rcases h with h | h
  · exact absurd (mem_ite_nil h) (by decide)
  · exact absurd (mem_ite_nil h) (by decide)

end LogLemmas

section ProjectionLemmas

theorem not_mem_colsNeeded_of_no_match (df : DF) (name : String)
    (h : matchRegVisit name = false) : name ∉ colsNeeded df := by
  intro hm
  have h2 := (List.mem_filter.mp hm).2
  rw [h] at h2
  cases h2

theorem setCol_inner_proj (df : DF) (name : String) :
    setCol (selectCols df (colsNeeded df)) "SOURCE_SHEET" (Cell.str name)
      = ⟨colsNeeded df ++ ["SOURCE_SHEET"],
          df.rows.map (fun r => (colsNeeded df).map (getCell df.cols r) ++ [Cell.str name])⟩ := by
  have h1 : "SOURCE_SHEET" ∉ colsNeeded df :=
    not_mem_colsNeeded_of_no_match df "SOURCE_SHEET" (by decide)
  have hc : (selectCols df (colsNeeded df)).cols = colsNeeded df := rfl
  have hr : (selectCols df (colsNeeded df)).rows
      = df.rows.map (fun r => (colsNeeded df).map (getCell df.cols r)) := rfl
  rw [setCol, hc, hr, if_neg h1]
  simp [List.map_map]

theorem colSummaryProj_eq (df : DF) (name : String) :
    colSummaryProj df name
      = ⟨(colsNeeded df ++ ["SOURCE_SHEET"]) ++ ["TOWNSHIP"],
          df.rows.map (fun r =>
            ((colsNeeded df).map (getCell df.cols r) ++ [Cell.str name]) ++ [Cell.str name])⟩ := by
  have h2 : "TOWNSHIP" ∉ colsNeeded df ++ ["SOURCE_SHEET"] := by
    intro hm
    rcases List.mem_append.mp hm with hm | hm
    · exact not_mem_colsNeeded_of_no_match df "TOWNSHIP" (by decide) hm
    · simp at hm
  unfold colSummaryProj
  rw [setCol_inner_proj]
  unfold setCol
  dsimp only
  rw [if_neg h2]
  simp [List.map_map]

end ProjectionLemmas

section WidthLemmas

theorem foldl_max_eq (l : List Nat) (a : Nat) :
    l.foldl max a = max a (l.foldl max 0) := by
  induction l generalizing a with
  | nil => simp
  | cons x xs ih =>
    simp only [List.foldl_cons]
    rw [ih (max a x), ih (max 0 x)]
    omega

theorem foldl_max_shift (k : List Cell → Nat) (rows : List (List Cell)) (a : Nat) :
    rows.foldl (fun m r => max m (k r)) a = max a ((rows.map k).foldl max 0) := by
  induction rows generalizing a with
  | nil => simp
  | cons x xs ih =>
    simp only [List.foldl_cons, List.map_cons]
    rw [ih (max a (k x)), foldl_max_eq (xs.map k) (max 0 (k x))]
    omega

theorem columnWidth_eq (cols : List String) (rows : List (List Cell)) (j : Nat) :
    columnWidth cols rows j
      = max ((cols.getD j "").length + 2)
          ((rows.map (fun r => cellLengthForWidth (r.getD j Cell.empty) + 2)).foldl max 0) := by
  unfold columnWidth
  exact foldl_max_shift (fun r => cellLengthForWidth (r.getD j Cell.empty) + 2) rows
    ((cols.getD j "").length + 2)

theorem widths_getD_formatWorksheetDates (ws : Worksheet) (j : Nat)
    (hj : j < ws.df.cols.length) :
    (formatWorksheetDates ws).widths.getD j (0, 0)
      = (j + 1, columnWidth ws.df.cols ws.df.rows j) := by
  unfold formatWorksheetDates
  rw [List.getD_eq_getElem?_getD, List.getElem?_map, List.getElem?_range hj]
  rfl

end WidthLemmas

section EraseLemmas

theorem lookupSheet_eraseSheet (sheets : List (String × DF)) (name m : String) (h : m ≠ name) :
    lookupSheet m (sheets.filter (fun p => decide (p.1 ≠ name))) = lookupSheet m sheets := by
  induction sheets with
  | nil => rfl
  | cons p rest ih =>
    obtain ⟨n, df⟩ := p
    by_cases hp : n = name
    · have hd : (decide ((n, df).1 ≠ name)) = false := by simp [hp]
      rw [List.filter_cons, hd]
      simp only [Bool.false_eq_true, if_false]
      rw [ih, lookupSheet, if_neg (fun he : n = m => h (he ▸ hp ▸ rfl))]
    · have hd : (decide ((n, df).1 ≠ name)) = true := by simp [hp]
      rw [List.filter_cons, hd]
      simp only [if_true]
      rw [lookupSheet, lookupSheet]
      by_cases hnm : n = m
      · rw [if_pos hnm, if_pos hnm]
      · rw [if_neg hnm, if_neg hnm, ih]

theorem mem_sheetnames_eraseSheet (wb : Workbook) (name s : String) (h : s ≠ name) :
    s ∈ (wb.eraseSheet name).sheetnames ↔ s ∈ wb.sheetnames := by
  unfold Workbook.eraseSheet Workbook.sheetnames
  simp only [List.mem_map, List.mem_filter, decide_eq_true_eq]
  constructor
  · rintro ⟨p, ⟨hp, _⟩, rfl⟩
    exact ⟨p, hp, rfl⟩
  · rintro ⟨p, hp, rfl⟩
    exact ⟨p, ⟨hp, h⟩, rfl⟩

theorem existingRowSheets_eraseSheet (wb : Workbook) (name : String)
    (h : name ∉ row_style_sheets) :
    existingRowSheets (wb.eraseSheet name) = existingRowSheets wb := by
  unfold existingRowSheets
  apply List.filter_congr
  intro s hs
  have hne : s ≠ name := fun he => h (he ▸ hs)
  rw [decide_eq_decide]
  exact mem_sheetnames_eraseSheet wb name s hne

theorem existingColumnSheets_eraseSheet (wb : Workbook) (name : String)
    (h : name ∉ column_style_sheets) :
    existingColumnSheets (wb.eraseSheet name) = existingColumnSheets wb := by
  unfold existingColumnSheets
  apply List.filter_congr
  intro s hs
  have hne : s ≠ name := fun he => h (he ▸ hs)
  rw [decide_eq_decide]
  exact mem_sheetnames_eraseSheet wb name s hne

theorem readSheet_eraseSheet (wb : Workbook) (name m : String) (h : m ≠ name) :
    readSheet (wb.eraseSheet name) m = readSheet wb m := by
  unfold readSheet Workbook.eraseSheet
  rw [show (Workbook.mk (wb.sheets.filter (fun p => decide (p.1 ≠ name)))).sheets
      = wb.sheets.filter (fun p => decide (p.1 ≠ name)) from rfl]
  rw [lookupSheet_eraseSheet wb.sheets name m h]

theorem producedOutputs_eraseSheet (wb : Workbook) (name : String)
    (h1 : name ∉ column_style_sheets) (h2 : name ∉ row_style_sheets) :
    producedOutputs (wb.eraseSheet name) = producedOutputs wb := by
  have hrow := existingRowSheets_eraseSheet wb name h2
  have hcol := existingColumnSheets_eraseSheet wb name h1
  have hprs : ∀ n ∈ existingRowSheets wb,
      processRowSheet (wb.eraseSheet name) n = processRowSheet wb n := by
    intro n hn
    have hne : n ≠ name := fun he => h2 (he ▸ List.mem_of_mem_filter hn)
    unfold processRowSheet
    rw [readSheet_eraseSheet wb name n hne]
  have hcln : ∀ n ∈ existingColumnSheets wb,
      cleanColSheet (wb.eraseSheet name) n = cleanColSheet wb n := by
    intro n hn
    have hne : n ≠ name := fun he => h1 (he ▸ List.mem_of_mem_filter hn)
    unfold cleanColSheet
    rw [readSheet_eraseSheet wb name n hne]
  have hrsd : rowSummaryData (wb.eraseSheet name) = rowSummaryData wb := by
    unfold rowSummaryData
    rw [hrow]
    exact List.map_congr_left hprs
  have hcsl : columnSummaryList (wb.eraseSheet name) = columnSummaryList wb := by
    unfold columnSummaryList
    rw [hcol]
    apply List.map_congr_left
    intro n hn
    rw [hcln n hn]
  have hro : rowOutput (wb.eraseSheet name) = rowOutput wb := by
    unfold rowOutput
    rw [hrsd, hrow]
    by_cases hc : (rowSummaryData wb).isEmpty = true
    · rw [if_pos hc, if_pos hc]
    · rw [if_neg hc, if_neg hc]
      congr 1
      congr 1
      apply List.map_congr_left
      intro n hn
      rw [hprs n hn]
  have hco : columnOutput (wb.eraseSheet name) = columnOutput wb := by
    unfold columnOutput
    rw [hcsl, hcol]
    by_cases hc : (columnSummaryList wb).isEmpty = true
    · rw [if_pos hc, if_pos hc]
    · rw [if_neg hc, if_neg hc]
      congr 1
      congr 1
      apply List.map_congr_left
      intro n hn
      rw [hcln n hn]
  have hfl : finalSheetList (wb.eraseSheet name) = finalSheetList wb := by
    unfold finalSheetList
    rw [hcsl, hcol, hrow]
    congr 1
    · congr 1
      apply List.map_congr_left
      intro n hn
      rw [hcln n hn]
    · apply List.map_congr_left
      intro n hn
      rw [hprs n hn]
  unfold producedOutputs finalOutput
  rw [hro, hco, hfl]

theorem mem_producedOutputs_cases (wb : Workbook) (out : List Worksheet) (ws : Worksheet)
    (hout : out ∈ producedOutputs wb) (hws : ws ∈ out) :
    ws.name = "Summary"
    ∨ ws.name ∈ row_style_sheets
    ∨ ws.name ∈ column_style_sheets := by
  unfold producedOutputs at hout
  simp only [List.mem_append] at hout
  rcases hout with (hout | hout) | hout
  · by_cases hc : (rowSummaryData wb).isEmpty = true
    · simp [rowOutput, hc] at hout
    · simp only [rowOutput, if_neg hc, List.mem_singleton] at hout
      subst hout
      rcases List.mem_cons.mp hws with hws | hws
      · left; rw [hws]; rfl
      · simp only [List.mem_map] at hws
        obtain ⟨n, hn, rfl⟩ := hws
        right; left
        exact List.mem_of_mem_filter hn
  · by_cases hc : (columnSummaryList wb).isEmpty = true
    · simp [columnOutput, hc] at hout
    · simp only [columnOutput, if_neg hc, List.mem_singleton] at hout
      subst hout
      rcases List.mem_cons.mp hws with hws | hws
      · left; rw [hws]; rfl
      · simp only [List.mem_map] at hws
        obtain ⟨n, hn, rfl⟩ := hws
        right; right
        exact List.mem_of_mem_filter hn
  · by_cases hc : (finalSheetList wb).isEmpty = true
    · simp [finalOutput, saveWorkbook, hc] at hout
    · simp only [finalOutput, saveWorkbook, if_neg hc, List.mem_singleton] at hout
      subst hout
      unfold finalSheetList at hws
      simp only [List.mem_append] at hws
      rcases hws with (hws | hws) | hws
      · by_cases hc2 : (columnSummaryList wb).isEmpty = true
        · simp [hc2] at hws
        · simp only [if_neg hc2, List.mem_singleton] at hws
          left; rw [hws]; rfl
      · simp only [List.mem_map] at hws
        obtain ⟨n, hn, rfl⟩ := hws
        right; right
        exact List.mem_of_mem_filter hn
      · simp only [List.mem_map] at hws
        obtain ⟨n, hn, rfl⟩ := hws
        right; left
        exact List.mem_of_mem_filter hn

end EraseLemmas

/-- Claim C1: for every workbook whose sheet names intersect the row-style
static list in k ≥ 1 sheets, the row-style output workbook exists and has
exactly k+1 sheets — `Summary` first, then one sheet per matched source name
in static-list order — and the `Summary` sheet's data-row count equals the
sum of the k source sheets' data-row counts. -/
theorem rowOutput_structure (wb : Workbook) (h : existingRowSheets wb ≠ []) :
    ∃ out, rowOutput wb = some out
      ∧ out.length = (existingRowSheets wb).length + 1
      ∧ out.map Worksheet.name = "Summary" :: existingRowSheets wb
      ∧ (out.headD (writeDF "" ⟨[], []⟩)).df.rows.length
          = ((existingRowSheets wb).map (fun n => (readSheet wb n).rows.length)).sum := by
  have hni : ¬((rowSummaryData wb).isEmpty = true) := by
    simp [rowSummaryData, List.isEmpty_eq_true, h]
  refine ⟨_, by rw [rowOutput, if_neg hni], ?_, ?_, ?_⟩
  · simp
  · simp only [List.map_cons, List.map_map]
    have hcomp : (Worksheet.name ∘ fun n => writeDF n (processRowSheet wb n)) = fun n => n := rfl
    rw [hcomp, List.map_id']
    rfl
  · simp only [List.headD_cons, writeDF]
    rw [concatDFs_rows_length, rowSummaryData, List.map_map]
    congr 1
    apply List.map_congr_left
    intro n _
    exact processRowSheet_rows_length wb n

/-- Witness for C1: the concrete workbook `wbRow` matches the row-style list
in exactly one sheet (`Kyauktaw`, 2 data rows). -/
theorem rowOutput_structure_witness :
    existingRowSheets wbRow ≠ []
    ∧ ∃ out, rowOutput wbRow = some out
      ∧ out.length = (existingRowSheets wbRow).length + 1
      ∧ out.map Worksheet.name = "Summary" :: existingRowSheets wbRow
      ∧ (out.headD (writeDF "" ⟨[], []⟩)).df.rows.length
          = ((existingRowSheets wbRow).map (fun n => (readSheet wbRow n).rows.length)).sum :=
  ⟨by decide, rowOutput_structure wbRow (by decide)⟩

/-- Claim C7: `existing_row_sheets` is exactly the intersection of the static
row-style list with the workbook's sheet names, ordered by the static list
(a sublist of it), membership being exact case-sensitive string equality;
likewise `existing_column_sheets` for the column-style list. -/
theorem classification_spec (wb : Workbook) :
    List.Sublist (existingRowSheets wb) row_style_sheets
    ∧ List.Sublist (existingColumnSheets wb) column_style_sheets
    ∧ (∀ s, s ∈ existingRowSheets wb ↔ s ∈ row_style_sheets ∧ s ∈ wb.sheetnames)
    ∧ (∀ s, s ∈ existingColumnSheets wb ↔ s ∈ column_style_sheets ∧ s ∈ wb.sheetnames) := by
  refine ⟨List.filter_sublist _, List.filter_sublist _, ?_, ?_⟩ <;>
    intro s <;> simp [existingRowSheets, existingColumnSheets]

/-- Witness for C7: `Kyauktaw` is classified row-style in `wbRow`, and order
and membership compute as the theorem states. -/
theorem classification_spec_witness : "Kyauktaw" ∈ existingRowSheets wbRow :=
  ((classification_spec wbRow).2.2.1 "Kyauktaw").mpr ⟨by decide, by decide⟩

/-- Counterexample to claim C6 as stated: for a column with header `A`
(length 1) and single cell `hello` (rendered length 5) the helper sets
width 7 — the code takes the maximum of header length + 2 and rendered cell
length + 2 — whereas the claim's formula max(header length + 2, widest
rendered cell) gives 5. -/
theorem formatWidth_counterexample :
    (formatWorksheetDates (writeDF "S" ⟨["A"], [[Cell.str "hello"]]⟩)).widths = [(1, 7)]
    ∧ max ("A".length + 2) (cellLengthForWidth (Cell.str "hello")) = 5
    ∧ (7 : Nat) ≠ 5 := by
  refine ⟨by decide, by decide, by decide⟩

/-- Claim C6 amended: the helper sets column j's width to the maximum of the
header length + 2 and, over all rows, the rendered cell length + 2 — a
date/time cell rendering as `YYYY-MM-DD` with fixed length 10 (hence
contributing 12) — and applies a cell-level `yyyy-mm-dd` number format to
every date cell. -/
theorem formatWorksheetDates_spec (ws : Worksheet) (j : Nat) (hj : j < ws.df.cols.length) :
    (formatWorksheetDates ws).widths.getD j (0, 0)
      = (j + 1, max ((ws.df.cols.getD j "").length + 2)
          ((ws.df.rows.map
            (fun r => cellLengthForWidth (r.getD j Cell.empty) + 2)).foldl max 0))
    ∧ (∀ y m d, cellLengthForWidth (Cell.date y m d) = 10)
    ∧ (∀ i y m d, i < ws.df.rows.length →
        (ws.df.rows.getD i []).getD j Cell.empty = Cell.date y m d →
        (i + 2, j + 1, "yyyy-mm-dd") ∈ (formatWorksheetDates ws).formats) := by
  refine ⟨?_, fun y m d => rfl, ?_⟩
  · rw [widths_getD_formatWorksheetDates ws j hj, columnWidth_eq]
  · intro i y m d hi hcell
    show (i + 2, j + 1, "yyyy-mm-dd") ∈ dateFormats ws.df.cols ws.df.rows
    unfold dateFormats
    rw [List.mem_flatten]
    refine ⟨(List.range ws.df.rows.length).filterMap (fun i2 =>
      match (ws.df.rows.getD i2 []).getD j Cell.empty with
      | Cell.date _ _ _ => some (i2 + 2, j + 1, "yyyy-mm-dd")
      | _ => none), ?_, ?_⟩
    · exact List.mem_map.mpr ⟨j, List.mem_range.mpr hj, rfl⟩
    · refine List.mem_filterMap.mpr ⟨i, List.mem_range.mpr hi, ?_⟩
      rw [hcell]

/-- Witness for C6 (amended) at the concrete worksheet `wsDate`: header
`Visit Date` (10+2) and the date cell (10+2) give width 12, and the date
cell at data row 0 receives the `yyyy-mm-dd` format at worksheet cell
(2, 1). -/
theorem formatWorksheetDates_spec_witness :
    (formatWorksheetDates wsDate).widths.getD 0 (0, 0) = (1, 12)
    ∧ (2, 1, "yyyy-mm-dd") ∈ (formatWorksheetDates wsDate).formats :=
  ⟨by rw [(formatWorksheetDates_spec wsDate 0 (by decide)).1]; decide,
   (formatWorksheetDates_spec wsDate 0 (by decide)).2.2 0 2024 1 2 (by decide) (by decide)⟩

/-- Claim C10: every sheet of every produced output workbook keeps the
writer's defaults — no column width and no cell-level number format is ever
applied, because `format_worksheet_dates` (and `create_uid`) have no call
site in the processing pass. -/
theorem writer_default_formatting (wb : Workbook) :
    ∀ out ∈ producedOutputs wb, ∀ ws ∈ out, ws.widths = [] ∧ ws.formats = [] := by
  intro out hout ws hws
  suffices h : ∃ n df, ws = writeDF n df by
    obtain ⟨n, df, rfl⟩ := h
    exact ⟨rfl, rfl⟩
  unfold producedOutputs at hout
  simp only [List.mem_append] at hout
  rcases hout with (hout | hout) | hout
  · by_cases hc : (rowSummaryData wb).isEmpty = true
    · simp [rowOutput, hc] at hout
    · simp only [rowOutput, if_neg hc, List.mem_singleton] at hout
      subst hout
      rcases List.mem_cons.mp hws with hws | hws
      · exact ⟨_, _, hws⟩
      · simp only [List.mem_map] at hws
        obtain ⟨n, _, rfl⟩ := hws
        exact ⟨_, _, rfl⟩
  · by_cases hc : (columnSummaryList wb).isEmpty = true
    · simp [columnOutput, hc] at hout
    · simp only [columnOutput, if_neg hc, List.mem_singleton] at hout
      subst hout
      rcases List.mem_cons.mp hws with hws | hws
      · exact ⟨_, _, hws⟩
      · simp only [List.mem_map] at hws
        obtain ⟨n, _, rfl⟩ := hws
        exact ⟨_, _, rfl⟩
  · by_cases hc : (finalSheetList wb).isEmpty = true
    · simp [finalOutput, saveWorkbook, hc] at hout
    · simp only [finalOutput, saveWorkbook, if_neg hc, List.mem_singleton] at hout
      subst hout
      unfold finalSheetList at hws
      simp only [List.mem_append] at hws
      rcases hws with (hws | hws) | hws
      · by_cases hc2 : (columnSummaryList wb).isEmpty = true
        · simp [hc2] at hws
        · simp only [if_neg hc2, List.mem_singleton] at hws
          exact ⟨_, _, hws⟩
      · simp only [List.mem_map] at hws
        obtain ⟨n, _, rfl⟩ := hws
        exact ⟨_, _, rfl⟩
      · simp only [List.mem_map] at hws
        obtain ⟨n, _, rfl⟩ := hws
        exact ⟨_, _, rfl⟩

/-- Claim C3: the per-cell cleaning step maps a text cell to the same string
with leading and trailing whitespace removed and leaves every non-text cell
unchanged; consequently every text cell of every sheet written to any of the
three output workbooks has no leading or trailing whitespace. -/
theorem cleaning_spec :
    (∀ s, cleanCell (Cell.str s) = Cell.str (pyStrip s))
    ∧ (∀ c, (∀ s, c ≠ Cell.str s) → cleanCell c = c)
    ∧ (∀ wb : Workbook, ∀ out ∈ producedOutputs wb, ∀ ws ∈ out, DFtrimmed ws.df) := by
  refine ⟨fun s => rfl, ?_, outputs_trimmed⟩
  intro c hc
  cases c with
  | str s => exact absurd rfl (hc s)
  | num n => rfl
  | date y m d => rfl
  | empty => rfl

/-- Witness for C3: a non-text cell is untouched, and the first sheet of the
first output produced for `wbRow` is whitespace-clean. -/
theorem cleaning_spec_witness :
    cleanCell (Cell.num 3) = Cell.num 3
    ∧ DFtrimmed (((producedOutputs wbRow).headD []).headD (writeDF "" ⟨[], []⟩)).df :=
  ⟨cleaning_spec.2.1 (Cell.num 3) (fun _ h => Cell.noConfusion h),
   cleaning_spec.2.2 wbRow ((producedOutputs wbRow).headD []) (by decide)
     (((producedOutputs wbRow).headD []).headD (writeDF "" ⟨[], []⟩)) (by decide)⟩

/-- Claim C4: for every processed column-style sheet, the summary
projection's columns are exactly the cleaned sheet's columns whose name
contains `registration` or `visit` (case-insensitive) followed by the two
tag columns `SOURCE_SHEET` and `TOWNSHIP`; both tags hold the sheet's name
in every row; with no matching column only the two tag columns remain; and
the projection is always an element of the list concatenated into `Summary`. -/
theorem columnProjection_spec (wb : Workbook) (name : String)
    (h : name ∈ existingColumnSheets wb) :
    (colSummaryProj (cleanColSheet wb name) name).cols
        = colsNeeded (cleanColSheet wb name) ++ ["SOURCE_SHEET", "TOWNSHIP"]
    ∧ (∀ r ∈ (colSummaryProj (cleanColSheet wb name) name).rows,
        getCell (colSummaryProj (cleanColSheet wb name) name).cols r "SOURCE_SHEET"
            = Cell.str name
        ∧ getCell (colSummaryProj (cleanColSheet wb name) name).cols r "TOWNSHIP"
            = Cell.str name)
    ∧ (colsNeeded (cleanColSheet wb name) = [] →
        (colSummaryProj (cleanColSheet wb name) name).cols = ["SOURCE_SHEET", "TOWNSHIP"])
    ∧ colSummaryProj (cleanColSheet wb name) name ∈ columnSummaryList wb := by
  have h1 : "SOURCE_SHEET" ∉ colsNeeded (cleanColSheet wb name) :=
    not_mem_colsNeeded_of_no_match _ "SOURCE_SHEET" (by decide)
  have h2 : "TOWNSHIP" ∉ colsNeeded (cleanColSheet wb name) ++ ["SOURCE_SHEET"] := by
    intro hm
    rcases List.mem_append.mp hm with hm | hm
    · exact not_mem_colsNeeded_of_no_match _ "TOWNSHIP" (by decide) hm
    · simp at hm
  refine ⟨?_, ?_, ?_, ?_⟩
  · rw [colSummaryProj_eq]
    simp
  · intro r hr
    rw [colSummaryProj_eq] at hr
    simp only [List.mem_map] at hr
    obtain ⟨r0, _, rfl⟩ := hr
    rw [colSummaryProj_eq]
    have hlen : ((colsNeeded (cleanColSheet wb name)).map
        (getCell (cleanColSheet wb name).cols r0)).length
        = (colsNeeded (cleanColSheet wb name)).length := List.length_map _ _
    constructor
    · rw [List.append_assoc, List.append_assoc,
        getCell_append_not_mem _ _ _ _ _ h1 hlen]
      simp [getCell]
    · rw [getCell_append_not_mem _ _ _ _ _ h2 (by simp [hlen])]
      simp [getCell]
  · intro hz
    rw [colSummaryProj_eq]
    simp [hz]
  · rw [columnSummaryList]
    exact List.mem_map.mpr ⟨name, h, rfl⟩

/-- Witness for C4 at the concrete workbook `wbCol` (sheet `Kutkai` with two
matching columns). -/
theorem columnProjection_spec_witness :
    (colSummaryProj (cleanColSheet wbCol "Kutkai") "Kutkai").cols
        = colsNeeded (cleanColSheet wbCol "Kutkai") ++ ["SOURCE_SHEET", "TOWNSHIP"]
    ∧ colSummaryProj (cleanColSheet wbCol "Kutkai") "Kutkai" ∈ columnSummaryList wbCol :=
  ⟨(columnProjection_spec wbCol "Kutkai" (by decide)).1,
   (columnProjection_spec wbCol "Kutkai" (by decide)).2.2.2⟩

/-- Claim C5: the single try/except boundary catches any exception: every
pass ends with at most one ❌-marked log line; a corrupted (non-parseable)
upload yields exactly one error line and zero download buttons; and when the
final writer raises mid-pass, the output of that incomplete stage is not
offered while the error is logged exactly once. -/
theorem errorBoundary_spec (fname : String) (parsed : Except String Workbook) :
    (processUpload fname parsed).logs.countP markedAsError ≤ 1
    ∧ (∀ e, parsed = Except.error e →
        (processUpload fname parsed).logs.countP markedAsError = 1
        ∧ (processUpload fname parsed).downloads = [])
    ∧ (∀ wb, parsed = Except.ok wb → ∀ e, finalOutput wb = Except.error e →
        "Final_Restructured_Data.xlsx" ∉ (processUpload fname parsed).downloads
        ∧ (processUpload fname parsed).logs.countP markedAsError = 1) := by
  refine ⟨?_, ?_, ?_⟩
  · cases parsed with
    | error e =>
      simp [processUpload, List.countP_cons, markedAsError_uploadLog, markedAsError_errorLog,
        List.countP_nil]
    | ok wb =>
      cases hf : finalOutput wb with
      | ok l =>
        have hm : markedAsError "🎉 All files processed successfully!" = false := by decide
        simp [processUpload, hf, List.countP_append, countP_okLogs, List.countP_cons,
          List.countP_nil, hm]
      | error e =>
        simp [processUpload, hf, List.countP_append, countP_okLogs, List.countP_cons,
          List.countP_nil, markedAsError_errorLog]
  · intro e he
    subst he
    constructor
    · simp [processUpload, List.countP_cons, markedAsError_uploadLog, markedAsError_errorLog,
        List.countP_nil]
    · rfl
  · intro wb hw e hf
    subst hw
    constructor
    · simp only [processUpload, hf]
      exact final_not_mem_okDownloads wb
    · simp [processUpload, hf, List.countP_append, countP_okLogs, List.countP_cons,
        List.countP_nil, markedAsError_errorLog]

/-- Witness for C5: a corrupted upload produces exactly one error line and
zero download buttons. -/
theorem errorBoundary_spec_witness :
    (processUpload "bad.xlsx" (Except.error "File is not a zip file")).logs.countP
        markedAsError = 1
    ∧ (processUpload "bad.xlsx" (Except.error "File is not a zip file")).downloads = [] :=
  (errorBoundary_spec "bad.xlsx" (Except.error "File is not a zip file")).2.1 _ rfl

/-- Counterexample to claim C2 as stated: the workbook `wbNone` parses
successfully but matches neither static list, and then the final
restructured download is NOT offered — the final `ExcelWriter` has zero
sheets to save and raises, so no download at all is offered. -/
theorem final_zero_match_counterexample :
    "Final_Restructured_Data.xlsx" ∉ (processUpload "f.xlsx" (Except.ok wbNone)).downloads
    ∧ (processUpload "f.xlsx" (Except.ok wbNone)).downloads = [] := by
  constructor
  · decide
  · decide

/-- Claim C2 amended: for every successfully parsed workbook with at least
one sheet matching either static list, the final restructured workbook is
produced and its download offered; with zero matches the final writer raises
instead (saving a sheetless workbook fails), the boundary logs exactly one
error line, and no row-style, column-style or final download is offered. -/
theorem final_output_conditional (fname : String) (wb : Workbook) :
    (existingRowSheets wb = [] ∧ existingColumnSheets wb = [] →
      (processUpload fname (Except.ok wb)).downloads = []
      ∧ (processUpload fname (Except.ok wb)).logs.countP markedAsError = 1)
    ∧ ((existingRowSheets wb ≠ [] ∨ existingColumnSheets wb ≠ []) →
      finalOutput wb = Except.ok (finalSheetList wb)
      ∧ "Final_Restructured_Data.xlsx" ∈ (processUpload fname (Except.ok wb)).downloads) := by
  constructor
  · rintro ⟨hr, hc⟩
    have hrs : rowSummaryData wb = [] := by simp [rowSummaryData, hr]
    have hcs : columnSummaryList wb = [] := by simp [columnSummaryList, hc]
    have hfl : finalSheetList wb = [] := by simp [finalSheetList, hcs, hr, hc]
    have hf : finalOutput wb = Except.error "At least one sheet must be visible" := by
      simp [finalOutput, saveWorkbook, hfl]
    constructor
    · simp [processUpload, hf, okDownloads, hrs, hcs]
    · simp [processUpload, hf, List.countP_append, countP_okLogs, List.countP_cons,
        List.countP_nil, markedAsError_errorLog]
  · intro h
    have hne : ¬((finalSheetList wb).isEmpty = true) := by
      rw [List.isEmpty_eq_true]
      intro heq
      rw [finalSheetList] at heq
      rcases List.append_eq_nil.mp heq with ⟨heq1, heq3⟩
      rcases List.append_eq_nil.mp heq1 with ⟨_, heq2⟩
      rcases h with h | h
      · exact h (List.map_eq_nil_iff.mp heq3)
      · exact h (List.map_eq_nil_iff.mp heq2)
    have hf : finalOutput wb = Except.ok (finalSheetList wb) := by
      rw [finalOutput, saveWorkbook, if_neg hne]
    refine ⟨hf, ?_⟩
    simp only [processUpload, hf]
    exact List.mem_append_right _ (by simp)

/-- Witness for C2 (amended): the zero-match case at `wbNone` and the
produced case at `wbRow`. -/
theorem final_output_conditional_witness :
    ((processUpload "f.xlsx" (Except.ok wbNone)).downloads = []
      ∧ (processUpload "f.xlsx" (Except.ok wbNone)).logs.countP markedAsError = 1)
    ∧ (finalOutput wbRow = Except.ok (finalSheetList wbRow)
      ∧ "Final_Restructured_Data.xlsx" ∈ (processUpload "g.xlsx" (Except.ok wbRow)).downloads) :=
  ⟨(final_output_conditional "f.xlsx" wbNone).1 ⟨by decide, by decide⟩,
   (final_output_conditional "g.xlsx" wbRow).2 (Or.inl (by decide))⟩

/-- Claim C8: a sheet whose name lies in neither static list never appears
in any of the three output workbooks and contributes nothing to them:
removing it from the workbook leaves every produced output unchanged (so it
is dropped silently, without error), and no output sheet carries its name
(apart from the derived sheet name `Summary` itself). -/
theorem unmatched_sheet_dropped (wb : Workbook) (name : String)
    (h1 : name ∉ column_style_sheets) (h2 : name ∉ row_style_sheets) :
    producedOutputs (wb.eraseSheet name) = producedOutputs wb
    ∧ (name ≠ "Summary" →
        ∀ out ∈ producedOutputs wb, ∀ ws ∈ out, ws.name ≠ name) := by
  refine ⟨producedOutputs_eraseSheet wb name h1 h2, ?_⟩
  intro hS out hout ws hws heq
  rcases mem_producedOutputs_cases wb out ws hout hws with hn | hn | hn
  · rw [heq] at hn
    exact hS hn
  · rw [heq] at hn
    exact h2 hn
  · rw [heq] at hn
    exact h1 hn

/-- Witness for C8: erasing the unmatched sheet `Bar` from `wbRowBar` leaves
all produced outputs unchanged, and no output sheet is named `Bar`. -/
theorem unmatched_sheet_dropped_witness :
    producedOutputs (wbRowBar.eraseSheet "Bar") = producedOutputs wbRowBar
    ∧ (((producedOutputs wbRowBar).headD []).headD (writeDF "" ⟨[], []⟩)).name ≠ "Bar" :=
  ⟨(unmatched_sheet_dropped wbRowBar "Bar" (by decide) (by decide)).1,
   (unmatched_sheet_dropped wbRowBar "Bar" (by decide) (by decide)).2 (by decide)
     ((producedOutputs wbRowBar).headD []) (by decide)
     (((producedOutputs wbRowBar).headD []).headD (writeDF "" ⟨[], []⟩)) (by decide)⟩

/-- Claim C9: `TOWNSHIP` tagging applies exactly where specified: every
cleaned row-style sheet gets a `TOWNSHIP` column holding the sheet's name in
every row (a pre-existing `TOWNSHIP` column is overwritten in place, leaving
the column list unchanged), while the full cleaned column-style sheet keeps
exactly its original columns — no `TOWNSHIP` or `SOURCE_SHEET` is added to
the sheet itself, which is what the column output emits. -/
theorem township_tagging_frame (wb : Workbook) (name : String) :
    (name ∈ existingRowSheets wb →
      "TOWNSHIP" ∈ (processRowSheet wb name).cols
      ∧ (∀ r ∈ (processRowSheet wb name).rows,
          getCell (processRowSheet wb name).cols r "TOWNSHIP" = Cell.str name)
      ∧ ("TOWNSHIP" ∈ (readSheet wb name).cols →
          (processRowSheet wb name).cols = (readSheet wb name).cols))
    ∧ (name ∈ existingColumnSheets wb →
      (cleanColSheet wb name).cols = (readSheet wb name).cols
      ∧ writeDF name (cleanColSheet wb name) ∈ (columnOutput wb).getD []) := by
  constructor
  · intro _
    have hRL : rowsLen (applymapClean (readSheet wb name)) :=
      rowsLen_applymapClean _ (rowsLen_readSheet wb name)
    have hcols : (applymapClean (readSheet wb name)).cols = (readSheet wb name).cols := rfl
    unfold processRowSheet setCol
    by_cases hm : "TOWNSHIP" ∈ (applymapClean (readSheet wb name)).cols
    · rw [if_pos hm]
      refine ⟨hm, ?_, fun _ => rfl⟩
      intro r hr
      simp only [List.mem_map] at hr
      obtain ⟨r0, hr0, rfl⟩ := hr
      exact getCell_setColRow _ _ _ _ hm (hRL r0 hr0)
    · rw [if_neg hm]
      refine ⟨by simp, ?_, fun hc => absurd (hcols ▸ hc) hm⟩
      intro r hr
      simp only [List.mem_map] at hr
      obtain ⟨r0, hr0, rfl⟩ := hr
      rw [getCell_append_not_mem _ _ _ _ _ hm (hRL r0 hr0)]
      simp [getCell]
  · intro h
    refine ⟨rfl, ?_⟩
    have hne : ¬((columnSummaryList wb).isEmpty = true) := by
      rw [List.isEmpty_eq_true]
      intro heq
      rw [columnSummaryList] at heq
      have h2 := List.map_eq_nil_iff.mp heq
      rw [h2] at h
      exact absurd h (List.not_mem_nil name)
    rw [columnOutput, if_neg hne]
    simp only [Option.getD_some]
    exact List.mem_cons_of_mem _ (List.mem_map.mpr ⟨name, h, rfl⟩)

/-- Witness for C9 at the concrete workbooks `wbRow` (row-style `Kyauktaw`)
and `wbCol` (column-style `Kutkai`). -/
theorem township_tagging_frame_witness :
    "TOWNSHIP" ∈ (processRowSheet wbRow "Kyauktaw").cols
    ∧ (cleanColSheet wbCol "Kutkai").cols = (readSheet wbCol "Kutkai").cols :=
  ⟨((township_tagging_frame wbRow "Kyauktaw").1 (by decide)).1,
   ((township_tagging_frame wbCol "Kutkai").2 (by decide)).1⟩

/-- Witness for C10: the first sheet of the first output produced for `wbRow`
carries no width and no format overrides. -/
theorem writer_default_formatting_witness :
    (((producedOutputs wbRow).headD []).headD (writeDF "" ⟨[], []⟩)).widths = []
    ∧ (((producedOutputs wbRow).headD []).headD (writeDF "" ⟨[], []⟩)).formats = [] :=
  writer_default_formatting wbRow ((producedOutputs wbRow).headD []) (by decide)
    (((producedOutputs wbRow).headD []).headD (writeDF "" ⟨[], []⟩)) (by decide)

end TBVisit
